import Mathlib

/-!
Shallow embedding of the CascadePay payment-splitting program
(src/programs/cascadepay/src/lib.rs) and verification of its specification.

Modelling conventions:
- Pubkeys are natural numbers; the all-zero key (Pubkey::default) is 0.
- u64/u128 checked arithmetic is modelled on Nat with explicit bound tests
  mirroring the checked_mul / checked_div / checked_add / checked_sub /
  try_into calls of the source.
- An entry of ctx.remaining_accounts is an AccountInfo record carrying the
  observations the program makes of it (key, writability, emptiness, owning
  program, result of token-account deserialization) plus a transferOk flag
  giving the outcome of the external transfer_checked CPI when all on-chain
  validations pass and the vault holds the amount.
- Each instruction handler is a function into Except ErrorCode _; the Solana
  runtime discards every account write of an instruction that returns an
  error, so an error result carries no state and the committed state on error
  is the pre-state.  execute_split additionally returns inside Option, where
  `none` models a Rust panic (the unguarded index ctx.remaining_accounts[i]).
-/

deriving instance DecidableEq for Except

namespace CascadePay

/-- Pubkeys are modelled as natural numbers; `Pubkey::default()` is `0`. -/
abbrev Pubkey := Nat

/-- Model of `token::ID`, the SPL Token program id (a fixed distinct key). -/
def tokenProgramID : Pubkey := 1

/-- Model of `token_2022::ID`, the Token-2022 program id. -/
def token2022ProgramID : Pubkey := 2

/-- Model of the `PROTOCOL_WALLET` constant (lib.rs line 22). -/
def PROTOCOL_WALLET : Pubkey := 3

/-- `REQUIRED_SPLIT_TOTAL` (lib.rs line 24): recipients must total 9900 bps. -/
def REQUIRED_SPLIT_TOTAL : Nat := 9900

/-- `MIN_RECIPIENTS` (lib.rs line 25). -/
def MIN_RECIPIENTS : Nat := 2

/-- `MAX_RECIPIENTS` (lib.rs line 26). -/
def MAX_RECIPIENTS : Nat := 20

/-- Bound of u64 values; a checked u64 operation fails at this bound. -/
def U64_MOD : Nat := 2 ^ 64

/-- Bound of u128 values. -/
def U128_MOD : Nat := 2 ^ 128

/-- Error codes of the program (lib.rs lines 656-720), plus
`ExternalTransferError`, which stands for an error propagated from the
external transfer_checked CPI (not a member of the program's own enum). -/
inductive ErrorCode where
  | InvalidSplitTotal
  | InvalidRecipientCount
  | DuplicateRecipient
  | ZeroAddress
  | ZeroPercentage
  | VaultNotEmpty
  | InvalidVault
  | MathOverflow
  | MathUnderflow
  | RecipientATACountMismatch
  | RecipientATADoesNotExist
  | RecipientATAInvalid
  | RecipientATAWrongOwner
  | RecipientATAWrongMint
  | RecipientATAInvalidOwner
  | RecipientATAShouldBeReadOnly
  | TooManyUnclaimedEntries
  | MissingProtocolAccount
  | InvalidProtocolFeeRecipient
  | NothingToClaim
  | UnclaimedFundsExist
  | ExternalTransferError
deriving DecidableEq, Repr

/-- `Recipient` (lib.rs lines 584-587): address plus basis-point share (u16). -/
structure Recipient where
  address : Pubkey
  percentage_bps : Nat
deriving DecidableEq, Repr

/-- `UnclaimedAmount` (lib.rs lines 590-594). -/
structure UnclaimedAmount where
  recipient : Pubkey
  amount : Nat
  timestamp : Int
deriving DecidableEq, Repr

/-- `SplitConfig` account data (lib.rs lines 573-581). -/
structure SplitConfig where
  version : Nat
  authority : Pubkey
  mint : Pubkey
  vault : Pubkey
  recipients : List Recipient
  unclaimed_amounts : List UnclaimedAmount
  bump : Nat
deriving DecidableEq, Repr

/-- Fields of a deserialized SPL token account that the program inspects. -/
structure TokenAccount where
  owner : Pubkey
  mint : Pubkey
deriving DecidableEq, Repr

/-- Model of an `AccountInfo` from `ctx.remaining_accounts`: the observations
the program makes of the account, plus `transferOk`, the outcome of the
external transfer_checked CPI when every validation passes and the vault
balance covers the amount. -/
structure AccountInfo where
  key : Pubkey
  is_writable : Bool
  data_is_empty : Bool
  owner : Pubkey
  tokenAccount : Option TokenAccount
  transferOk : Bool
deriving DecidableEq, Repr

/-- Model of `get_associated_token_address_with_program_id(PROTOCOL_WALLET,
mint, token_program)` (lib.rs lines 229-233): a deterministic derivation of
the protocol fee account address from the mint and token-program keys. -/
def deriveProtocolATA (mintKey tokenProg : Pubkey) : Pubkey :=
  Nat.pair mintKey tokenProg + 1000000

/-- Per-recipient validation of `create_split_config` (lib.rs lines 65-99),
checks in source order: non-zero address, non-zero percentage, no duplicate
among the later recipients, read-only ATA, ATA exists, ATA owned by a token
program, ATA deserializes, ATA owner and mint match. -/
def createCheck (mint : Pubkey) (r : Recipient) (rest : List Recipient)
    (ata : AccountInfo) : Except ErrorCode Unit :=
  if r.address = 0 then .error .ZeroAddress
  else if r.percentage_bps = 0 then .error .ZeroPercentage
  else if rest.any (fun s => s.address = r.address) then .error .DuplicateRecipient
  else if ata.is_writable then .error .RecipientATAShouldBeReadOnly
  else if ata.data_is_empty then .error .RecipientATADoesNotExist
  else if ¬(ata.owner = tokenProgramID ∨ ata.owner = token2022ProgramID) then
    .error .RecipientATAInvalidOwner
  else
    match ata.tokenAccount with
    | none => .error .RecipientATAInvalid
    | some ta =>
      if ¬ ta.owner = r.address then .error .RecipientATAWrongOwner
      else if ¬ ta.mint = mint then .error .RecipientATAWrongMint
      else .ok ()

/-- The validation loop of `create_split_config` (lib.rs lines 65-99); the
count-equality guard before the loop ensures both lists have equal length, so
the mismatched-length branches are unreachable from `create_split_config`. -/
def createLoop (mint : Pubkey) : List Recipient → List AccountInfo → Except ErrorCode Unit
  | [], _ => .ok ()
  | _ :: _, [] => .ok ()
  | r :: rest, ata :: atas =>
    match createCheck mint r rest ata with
    | .error e => .error e
    | .ok _ => createLoop mint rest atas

/-- Fixed accounts of the CreateSplitConfig context that flow into the new
configuration (authority signer, vault ATA, PDA bump). -/
structure CreateAccounts where
  authority : Pubkey
  vaultKey : Pubkey
  bump : Nat
deriving DecidableEq, Repr

/-- `create_split_config` (lib.rs lines 45-120): count bound, percentage sum,
ATA count, per-recipient loop, then persist a fresh config with an empty
unclaimed list.  An error result persists nothing (runtime rollback). -/
def create_split_config (accs : CreateAccounts) (mint : Pubkey)
    (recipients : List Recipient) (remaining : List AccountInfo) :
    Except ErrorCode SplitConfig :=
  if ¬(MIN_RECIPIENTS ≤ recipients.length ∧ recipients.length ≤ MAX_RECIPIENTS) then
    .error .InvalidRecipientCount
  else if ¬((recipients.map (fun r => r.percentage_bps)).sum = REQUIRED_SPLIT_TOTAL) then
    .error .InvalidSplitTotal
  else if ¬(remaining.length = recipients.length) then
    .error .RecipientATACountMismatch
  else
    match createLoop mint recipients remaining with
    | .error e => .error e
    | .ok _ => .ok
        { version := 1
          authority := accs.authority
          mint := mint
          vault := accs.vaultKey
          recipients := recipients
          unclaimed_amounts := []
          bump := accs.bump }

/-- State persisted by the runtime after `create_split_config`: the new
configuration on success, nothing on error. -/
def createPersistedConfig (accs : CreateAccounts) (mint : Pubkey)
    (recipients : List Recipient) (remaining : List AccountInfo) :
    Option SplitConfig :=
  match create_split_config accs mint recipients remaining with
  | .ok cfg => some cfg
  | .error _ => none

/-- `validate_and_send_to_recipient` (lib.rs lines 414-455): validations in
source order, then the transfer_checked CPI, whose success requires the
account's `transferOk` flag and a vault balance covering the amount. -/
def validate_and_send (ata : AccountInfo) (r : Recipient) (mintKey : Pubkey)
    (vaultBal amount : Nat) : Except ErrorCode Unit :=
  if ata.data_is_empty then .error .RecipientATADoesNotExist
  else if ¬(ata.owner = tokenProgramID ∨ ata.owner = token2022ProgramID) then
    .error .RecipientATAInvalidOwner
  else
    match ata.tokenAccount with
    | none => .error .RecipientATAInvalid
    | some ta =>
      if ¬ ta.owner = r.address then .error .RecipientATAWrongOwner
      else if ¬ ta.mint = mintKey then .error .RecipientATAWrongMint
      else if ata.transferOk = true ∧ amount ≤ vaultBal then .ok ()
      else .error .ExternalTransferError

/-- Increment of an existing unclaimed entry (lib.rs lines 185-190):
`iter_mut().find(..)` bumps the first entry with the matching recipient,
with checked u64 addition and a refreshed timestamp. -/
def bumpExisting : List UnclaimedAmount → Pubkey → Nat → Int →
    Except ErrorCode (List UnclaimedAmount)
  | [], _, _, _ => .ok []
  | e :: rest, addr, amt, now =>
    if e.recipient = addr then
      if e.amount + amt < U64_MOD then
        .ok ({ recipient := e.recipient, amount := e.amount + amt, timestamp := now } :: rest)
      else .error .MathOverflow
    else
      match bumpExisting rest addr amt now with
      | .error er => .error er
      | .ok rest' => .ok (e :: rest')

/-- The unclaimed-entry upsert of the held path (lib.rs lines 184-203):
increment the existing entry when present, otherwise append a fresh entry,
guarded by the MAX_RECIPIENTS capacity bound on the whole list. -/
def upsertUnclaimed (u : List UnclaimedAmount) (addr : Pubkey) (amt : Nat)
    (now : Int) : Except ErrorCode (List UnclaimedAmount) :=
  if u.any (fun e => e.recipient = addr) then bumpExisting u addr amt now
  else if u.length < MAX_RECIPIENTS then
    .ok (u ++ [{ recipient := addr, amount := amt, timestamp := now }])
  else .error .TooManyUnclaimedEntries

/-- Accumulators threaded through the recipient loop of `execute_split`:
the unclaimed list being mutated, the live vault balance, the running
`distributed` and `held_as_unclaimed` totals, and the log of successful
recipient transfers (address, amount). -/
structure DistAcc where
  unclaimed : List UnclaimedAmount
  vaultBal : Nat
  distributed : Nat
  held : Nat
  transfers : List (Pubkey × Nat)
deriving DecidableEq, Repr

/-- The body of one iteration of the recipient loop of `execute_split`
(lib.rs lines 157-217), after the account lookup: the source's checked u128
multiply, divide by 10000 and try_into u64 produce the floor amount; a zero
amount is skipped; a failed send is converted into an unclaimed upsert and
added to `held`; a successful one is added to `distributed` and debited from
the vault. -/
def distStep (mintKey : Pubkey) (B : Nat) (now : Int) (r : Recipient)
    (ata : AccountInfo) (acc : DistAcc) : Except ErrorCode DistAcc :=
  if U128_MOD ≤ B * r.percentage_bps then .error .MathOverflow
  else if U64_MOD ≤ B * r.percentage_bps / 10000 then .error .MathOverflow
  else if B * r.percentage_bps / 10000 = 0 then .ok acc
  else
    match validate_and_send ata r mintKey acc.vaultBal (B * r.percentage_bps / 10000) with
    | .ok _ =>
      if acc.distributed + B * r.percentage_bps / 10000 < U64_MOD then
        .ok { acc with
              vaultBal := acc.vaultBal - B * r.percentage_bps / 10000
              distributed := acc.distributed + B * r.percentage_bps / 10000
              transfers := acc.transfers ++ [(r.address, B * r.percentage_bps / 10000)] }
      else .error .MathOverflow
    | .error _ =>
      match upsertUnclaimed acc.unclaimed r.address (B * r.percentage_bps / 10000) now with
      | .error e2 => .error e2
      | .ok u' =>
        if acc.held + B * r.percentage_bps / 10000 < U64_MOD then
          .ok { acc with unclaimed := u', held := acc.held + B * r.percentage_bps / 10000 }
        else .error .MathOverflow

/-- The recipient loop of `execute_split` (lib.rs lines 154-218).  `none`
models the Rust panic from the unguarded index `ctx.remaining_accounts[i]`. -/
def distLoop (mintKey : Pubkey) (B : Nat) (remaining : List AccountInfo)
    (now : Int) : List Recipient → Nat → DistAcc →
    Option (Except ErrorCode DistAcc)
  | [], _, acc => some (.ok acc)
  | r :: rest, i, acc =>
    match remaining[i]? with
    | none => none
    | some ata =>
      match distStep mintKey B now r ata acc with
      | .error e => some (.error e)
      | .ok acc' => distLoop mintKey B remaining now rest (i + 1) acc'

/-- Result of a successful `execute_split`: the updated configuration, the
vault balance after all transfers, the summary totals, whether the protocol
fee was actually transferred, and the recipient-transfer log. -/
structure ExecuteResult where
  config : SplitConfig
  vaultBal : Nat
  distributed : Nat
  held : Nat
  protocol_fee : Nat
  feePaid : Bool
  transfers : List (Pubkey × Nat)
deriving DecidableEq, Repr

/-- The protocol-fee phase of `execute_split` (lib.rs lines 220-301):
fee computed by checked subtraction `B - distributed - held`; when positive,
the last remaining account must be the derived protocol ATA and writable; an
empty (not yet created) account skips the transfer gracefully, otherwise the
owner/deserialization/owner-wallet/mint checks run and the fee is sent. -/
def feePhase (cfg : SplitConfig) (B : Nat) (mintKey tokenProg : Pubkey)
    (remaining : List AccountInfo) (acc : DistAcc) :
    Except ErrorCode ExecuteResult :=
  if B < acc.distributed then .error .MathUnderflow
  else if B - acc.distributed < acc.held then .error .MathUnderflow
  else if B - acc.distributed - acc.held = 0 then
    .ok (ExecuteResult.mk { cfg with unclaimed_amounts := acc.unclaimed }
      acc.vaultBal acc.distributed acc.held (B - acc.distributed - acc.held)
      false acc.transfers)
  else
    match remaining.getLast? with
    | none => .error .MissingProtocolAccount
    | some p =>
      if ¬ p.key = deriveProtocolATA mintKey tokenProg then
        .error .InvalidProtocolFeeRecipient
      else if ¬ p.is_writable = true then .error .InvalidProtocolFeeRecipient
      else if p.data_is_empty then
        .ok (ExecuteResult.mk { cfg with unclaimed_amounts := acc.unclaimed }
          acc.vaultBal acc.distributed acc.held (B - acc.distributed - acc.held)
          false acc.transfers)
      else if ¬(p.owner = tokenProgramID ∨ p.owner = token2022ProgramID) then
        .error .InvalidProtocolFeeRecipient
      else
        match p.tokenAccount with
        | none => .error .InvalidProtocolFeeRecipient
        | some ta =>
          if ¬ ta.owner = PROTOCOL_WALLET then .error .InvalidProtocolFeeRecipient
          else if ¬ ta.mint = mintKey then .error .InvalidProtocolFeeRecipient
          else if p.transferOk = true ∧ B - acc.distributed - acc.held ≤ acc.vaultBal then
            .ok (ExecuteResult.mk { cfg with unclaimed_amounts := acc.unclaimed }
              (acc.vaultBal - (B - acc.distributed - acc.held))
              acc.distributed acc.held (B - acc.distributed - acc.held)
              true acc.transfers)
          else .error .ExternalTransferError

/-- Inputs of `execute_split`: the config account, the live vault balance,
the mint key (constrained by Anchor to equal `split_config.mint`), the token
program in use, the caller-supplied remaining accounts, and the clock. -/
structure ExecuteCtx where
  split_config : SplitConfig
  vaultBal : Nat
  mintKey : Pubkey
  tokenProgKey : Pubkey
  remaining : List AccountInfo
  now : Int
deriving DecidableEq, Repr

/-- The initial accumulator of the recipient loop. -/
def initAcc (ctx : ExecuteCtx) : DistAcc :=
  DistAcc.mk ctx.split_config.unclaimed_amounts ctx.vaultBal 0 0 []

/-- `execute_split` (lib.rs lines 125-304): no-op on an empty vault, then the
recipient loop, then the protocol-fee phase.  `none` is a panic; an error
result commits nothing (runtime rollback). -/
def execute_split (ctx : ExecuteCtx) : Option (Except ErrorCode ExecuteResult) :=
  if ctx.vaultBal = 0 then
    some (.ok (ExecuteResult.mk ctx.split_config 0 0 0 0 false []))
  else
    match distLoop ctx.mintKey ctx.vaultBal ctx.remaining ctx.now
        ctx.split_config.recipients 0 (initAcc ctx) with
    | none => none
    | some (.error e) => some (.error e)
    | some (.ok acc) =>
      some (feePhase ctx.split_config ctx.vaultBal ctx.mintKey ctx.tokenProgKey
        ctx.remaining acc)

/-- Find-and-remove of the first unclaimed entry with the given recipient,
mirroring `position(..)` followed by `remove(index)` (lib.rs lines 318-322):
returns the removed entry and the remaining list. -/
def extractUnclaimed : List UnclaimedAmount → Pubkey →
    Option (UnclaimedAmount × List UnclaimedAmount)
  | [], _ => none
  | e :: rest, k =>
    if e.recipient = k then some (e, rest)
    else
      match extractUnclaimed rest k with
      | none => none
      | some (x, l) => some (x, e :: l)

/-- Inputs of `claim_unclaimed`: the config, the live vault balance, the
signing claimer's key, and the outcome flag of the transfer_checked CPI. -/
structure ClaimCtx where
  split_config : SplitConfig
  vaultBal : Nat
  claimer : Pubkey
  transferOk : Bool
deriving DecidableEq, Repr

/-- Result of a successful claim: updated config, vault balance, amount paid. -/
structure ClaimResult where
  config : SplitConfig
  vaultBal : Nat
  amount : Nat
deriving DecidableEq, Repr

/-- `claim_unclaimed` (lib.rs lines 307-354): find the caller's entry (error
NothingToClaim when absent), remove it, then transfer the recorded amount;
a transfer failure aborts the instruction, so the removal commits only when
the transfer succeeds. -/
def claim_unclaimed (ctx : ClaimCtx) : Except ErrorCode ClaimResult :=
  match extractUnclaimed ctx.split_config.unclaimed_amounts ctx.claimer with
  | none => .error .NothingToClaim
  | some (entry, rest) =>
    if ctx.transferOk = true ∧ entry.amount ≤ ctx.vaultBal then
      .ok (ClaimResult.mk { ctx.split_config with unclaimed_amounts := rest }
        (ctx.vaultBal - entry.amount) entry.amount)
    else .error .ExternalTransferError

/-- Configuration state committed by the runtime after `claim_unclaimed`:
on error every account write of the instruction is discarded. -/
def claimCommittedConfig (ctx : ClaimCtx) : SplitConfig :=
  match claim_unclaimed ctx with
  | .ok res => res.config
  | .error _ => ctx.split_config

/-- Per-recipient validation of `update_split_config` (lib.rs lines 383-393):
existence, then `InterfaceAccount::try_from` — which itself requires the
account to be owned by a recognized token program (Anchor's owners() check)
before deserializing, with both failure modes mapped to RecipientATAInvalid
by the source — then owner match and mint match.  The zero-address,
zero-percentage, duplicate and read-only checks of create are absent here. -/
def updateCheck (mintKey : Pubkey) (r : Recipient) (ata : AccountInfo) :
    Except ErrorCode Unit :=
  if ata.data_is_empty then .error .RecipientATADoesNotExist
  else if ¬(ata.owner = tokenProgramID ∨ ata.owner = token2022ProgramID) then
    .error .RecipientATAInvalid
  else
    match ata.tokenAccount with
    | none => .error .RecipientATAInvalid
    | some ta =>
      if ¬ ta.owner = r.address then .error .RecipientATAWrongOwner
      else if ¬ ta.mint = mintKey then .error .RecipientATAWrongMint
      else .ok ()

/-- The validation loop of `update_split_config` (lib.rs lines 383-393). -/
def updateLoop (mintKey : Pubkey) : List Recipient → List AccountInfo → Except ErrorCode Unit
  | [], _ => .ok ()
  | _ :: _, [] => .ok ()
  | r :: rest, ata :: atas =>
    match updateCheck mintKey r ata with
    | .error e => .error e
    | .ok _ => updateLoop mintKey rest atas

/-- Inputs of `update_split_config`: the config, the live vault balance
(of the config's vault, enforced by an Anchor constraint), and the
caller-supplied reference accounts. -/
structure UpdateCtx where
  split_config : SplitConfig
  vaultBal : Nat
  remaining : List AccountInfo
deriving DecidableEq, Repr

/-- `update_split_config` (lib.rs lines 358-406): vault must be empty, then
count bound, percentage sum, ATA count and the per-recipient loop; on success
the recipients field is replaced wholesale. -/
def update_split_config (ctx : UpdateCtx) (new_recipients : List Recipient) :
    Except ErrorCode SplitConfig :=
  if ¬ ctx.vaultBal = 0 then .error .VaultNotEmpty
  else if ¬(MIN_RECIPIENTS ≤ new_recipients.length ∧ new_recipients.length ≤ MAX_RECIPIENTS) then
    .error .InvalidRecipientCount
  else if ¬((new_recipients.map (fun r => r.percentage_bps)).sum = REQUIRED_SPLIT_TOTAL) then
    .error .InvalidSplitTotal
  else if ¬(ctx.remaining.length = new_recipients.length) then
    .error .RecipientATACountMismatch
  else
    match updateLoop ctx.split_config.mint new_recipients ctx.remaining with
    | .error e => .error e
    | .ok _ => .ok { ctx.split_config with recipients := new_recipients }

/-- Configuration state committed by the runtime after `update_split_config`:
on error every account write of the instruction is discarded. -/
def updateCommittedConfig (ctx : UpdateCtx) (new_recipients : List Recipient) :
    SplitConfig :=
  match update_split_config ctx new_recipients with
  | .ok cfg => cfg
  | .error _ => ctx.split_config

/-- Sum of the amounts recorded in an unclaimed list. -/
def sumAmounts (u : List UnclaimedAmount) : Nat :=
  (u.map (fun e => e.amount)).sum

/-- The structural invariant of the unclaimed-liability list: at most
MAX_RECIPIENTS entries and pairwise-distinct recipient keys. -/
def UnclaimedInv (u : List UnclaimedAmount) : Prop :=
  u.length ≤ MAX_RECIPIENTS ∧ (u.map (fun e => e.recipient)).Nodup

/-! Helper lemmas about the embedded operations. -/

/-- A successful send implies the transfer flag was set and the vault covered
the amount. -/
theorem validate_and_send_ok (ata : AccountInfo) (r : Recipient)
    (mintKey : Pubkey) (vb amt : Nat)
    (h : validate_and_send ata r mintKey vb amt = .ok ()) :
    ata.transferOk = true ∧ amt ≤ vb := by
  cases hta : ata.tokenAccount with
  | none =>
    simp only [validate_and_send, hta] at h
    split_ifs at h
  | some ta =>
    simp only [validate_and_send, hta] at h
    split_ifs at h with h1 h2 h3 h4 h5
    · exact h5

/-- Bumping an existing entry leaves the key sequence and length unchanged
and adds the amount to the total. -/
theorem bumpExisting_ok (u : List UnclaimedAmount) (addr : Pubkey) (amt : Nat)
    (now : Int) (u' : List UnclaimedAmount)
    (hmem : ∃ e ∈ u, e.recipient = addr)
    (h : bumpExisting u addr amt now = .ok u') :
    u'.map (fun e => e.recipient) = u.map (fun e => e.recipient) ∧
    u'.length = u.length ∧ sumAmounts u' = sumAmounts u + amt := by
  induction u generalizing u' with
  | nil => obtain ⟨e, he, -⟩ := hmem; exact absurd he (List.not_mem_nil e)
  | cons e rest ih =>
    by_cases he : e.recipient = addr
    · simp only [bumpExisting, if_pos he] at h
      split_ifs at h with hov
      cases h
      refine ⟨by simp, by simp, ?_⟩
      simp only [sumAmounts, List.map_cons, List.sum_cons]
      omega
    · simp only [bumpExisting, if_neg he] at h
      cases hrec : bumpExisting rest addr amt now with
      | error er => rw [hrec] at h; cases h
      | ok rest' =>
        rw [hrec] at h
        cases h
        have hmem' : ∃ x ∈ rest, x.recipient = addr := by
          obtain ⟨x, hx, hxa⟩ := hmem
          rcases List.mem_cons.mp hx with rfl | hx'
          · exact absurd hxa he
          · exact ⟨x, hx', hxa⟩
        obtain ⟨hk, hl, hs⟩ := ih rest' hmem' hrec
        refine ⟨by simp [hk], by simp [hl], ?_⟩
        simp only [sumAmounts, List.map_cons, List.sum_cons] at hs ⊢
        omega

/-- Upserting adds the amount to the total of the unclaimed list. -/
theorem upsertUnclaimed_ok_sum (u : List UnclaimedAmount) (addr : Pubkey)
    (amt : Nat) (now : Int) (u' : List UnclaimedAmount)
    (h : upsertUnclaimed u addr amt now = .ok u') :
    sumAmounts u' = sumAmounts u + amt := by
  unfold upsertUnclaimed at h
  split_ifs at h with hany hlen
  · have hmem : ∃ e ∈ u, e.recipient = addr := by
      simpa using List.any_eq_true.mp hany
    exact (bumpExisting_ok u addr amt now u' hmem h).2.2
  · cases h
    simp [sumAmounts]

/-- Upserting preserves the structural invariant of the unclaimed list. -/
theorem upsertUnclaimed_ok_inv (u : List UnclaimedAmount) (addr : Pubkey)
    (amt : Nat) (now : Int) (u' : List UnclaimedAmount)
    (hinv : UnclaimedInv u)
    (h : upsertUnclaimed u addr amt now = .ok u') : UnclaimedInv u' := by
  obtain ⟨hlen, hnd⟩ := hinv
  unfold upsertUnclaimed at h
  split_ifs at h with hany hcap
  · have hmem : ∃ e ∈ u, e.recipient = addr := by
      simpa using List.any_eq_true.mp hany
    obtain ⟨hk, hl, -⟩ := bumpExisting_ok u addr amt now u' hmem h
    exact ⟨hl ▸ hlen, hk ▸ hnd⟩
  · cases h
    refine ⟨by simpa using hcap, ?_⟩
    have haddr : ∀ x ∈ u, ¬ x.recipient = addr := by
      simp only [List.any_eq_true, decide_eq_true_eq] at hany
      intro x hx hxa
      exact hany ⟨x, hx, hxa⟩
    simp only [List.map_append, List.map_cons, List.map_nil]
    rw [List.nodup_append]
    refine ⟨hnd, by simp, ?_⟩
    intro a ha hb
    simp only [List.mem_singleton] at hb
    subst hb
    obtain ⟨x, hx, hxa⟩ := List.mem_map.mp ha
    exact haddr x hx hxa

/-- Extraction fails exactly when no entry has the requested key. -/
theorem extractUnclaimed_none_iff (u : List UnclaimedAmount) (k : Pubkey) :
    extractUnclaimed u k = none ↔ ∀ e ∈ u, ¬ e.recipient = k := by
  induction u with
  | nil => simp [extractUnclaimed]
  | cons e rest ih =>
    by_cases he : e.recipient = k
    · simp [extractUnclaimed, he]
    · simp only [extractUnclaimed, if_neg he]
      cases hrec : extractUnclaimed rest k with
      | none =>
        simp only [List.forall_mem_cons]
        exact iff_of_true (by trivial) ⟨he, ih.mp hrec⟩
      | some p =>
        obtain ⟨x, l⟩ := p
        simp only [List.forall_mem_cons]
        constructor
        · intro hcontra
          simp at hcontra
        · rintro ⟨-, hall⟩
          rw [ih.mpr hall] at hrec
          cases hrec

/-- A successful extraction decomposes the list around the first matching
entry. -/
theorem extractUnclaimed_some (u : List UnclaimedAmount) (k : Pubkey)
    (x : UnclaimedAmount) (rest : List UnclaimedAmount)
    (h : extractUnclaimed u k = some (x, rest)) :
    x.recipient = k ∧
    ∃ pre suf, u = pre ++ x :: suf ∧ rest = pre ++ suf ∧
      ∀ e ∈ pre, ¬ e.recipient = k := by
  induction u generalizing x rest with
  | nil => cases h
  | cons e tail ih =>
    by_cases he : e.recipient = k
    · simp only [extractUnclaimed, if_pos he] at h
      cases h
      exact ⟨he, [], tail, rfl, rfl, by simp⟩
    · simp only [extractUnclaimed, if_neg he] at h
      cases hrec : extractUnclaimed tail k with
      | none => rw [hrec] at h; cases h
      | some p =>
        obtain ⟨y, l⟩ := p
        rw [hrec] at h
        simp only [Option.some.injEq, Prod.mk.injEq] at h
        obtain ⟨rfl, rfl⟩ := h
        obtain ⟨hx, pre, suf, htail, hl, hpre⟩ := ih y l hrec
        exact ⟨hx, e :: pre, suf, by simp [htail], by simp [hl],
          by simpa [List.forall_mem_cons] using ⟨he, hpre⟩⟩

/-- A successful loop iteration adds some amount d to `distributed` (debited
from the vault) and some amount hd to `held` (recorded in the unclaimed
list), and preserves the structural invariant of the unclaimed list. -/
theorem distStep_ok (mintKey : Pubkey) (B : Nat) (now : Int) (r : Recipient)
    (ata : AccountInfo) (acc acc' : DistAcc)
    (h : distStep mintKey B now r ata acc = .ok acc') :
    (∃ d hd, acc'.distributed = acc.distributed + d ∧ acc'.held = acc.held + hd ∧
      acc.vaultBal = acc'.vaultBal + d ∧
      sumAmounts acc'.unclaimed = sumAmounts acc.unclaimed + hd) ∧
    (UnclaimedInv acc.unclaimed → UnclaimedInv acc'.unclaimed) := by
  unfold distStep at h
  split_ifs at h with h1 h2 h3
  · cases h
    exact ⟨⟨0, 0, by simp, by simp, by simp, by simp⟩, id⟩
  all_goals
    cases hv : validate_and_send ata r mintKey acc.vaultBal
        (B * r.percentage_bps / 10000) with
    | ok v =>
      cases v
      simp only [hv] at h
      first
      | · cases h
          obtain ⟨-, hle⟩ := validate_and_send_ok _ _ _ _ _ hv
          exact ⟨⟨B * r.percentage_bps / 10000, 0, by simp, by simp,
            by simp; omega, by simp⟩, id⟩
      | · cases h
    | error e =>
      simp only [hv] at h
      cases hup : upsertUnclaimed acc.unclaimed r.address
          (B * r.percentage_bps / 10000) now with
      | error e2 => simp only [hup] at h; cases h
      | ok u' =>
        simp only [hup] at h
        first
        | · cases h
            refine ⟨⟨0, B * r.percentage_bps / 10000, by simp, by simp, by simp,
              by simpa using upsertUnclaimed_ok_sum _ _ _ _ _ hup⟩, ?_⟩
            intro hi
            simpa using upsertUnclaimed_ok_inv _ _ _ _ _ hi hup
        | · cases h

/-- A successful run of the recipient loop only moves value: the vault loses
exactly what was added to `distributed`, and the unclaimed total gains
exactly what was added to `held`; the list invariant is preserved. -/
theorem distLoop_ok (mintKey : Pubkey) (B : Nat) (rem : List AccountInfo)
    (now : Int) (rs : List Recipient) :
    ∀ (i : Nat) (acc acc' : DistAcc),
    distLoop mintKey B rem now rs i acc = some (.ok acc') →
    (∃ d hd, acc'.distributed = acc.distributed + d ∧ acc'.held = acc.held + hd ∧
      acc.vaultBal = acc'.vaultBal + d ∧
      sumAmounts acc'.unclaimed = sumAmounts acc.unclaimed + hd) ∧
    (UnclaimedInv acc.unclaimed → UnclaimedInv acc'.unclaimed) := by
  induction rs with
  | nil =>
    intro i acc acc' h
    simp only [distLoop] at h
    cases h
    exact ⟨⟨0, 0, by simp, by simp, by simp, by simp⟩, id⟩
  | cons r rest ih =>
    intro i acc acc' h
    simp only [distLoop] at h
    cases hata : rem[i]? with
    | none => rw [hata] at h; cases h
    | some ata =>
      simp only [hata] at h
      cases hstep : distStep mintKey B now r ata acc with
      | error e => simp only [hstep] at h; cases h
      | ok a1 =>
        simp only [hstep] at h
        obtain ⟨⟨d1, hd1, hD1, hH1, hV1, hS1⟩, hI1⟩ :=
          distStep_ok mintKey B now r ata acc a1 hstep
        obtain ⟨⟨d2, hd2, hD2, hH2, hV2, hS2⟩, hI2⟩ := ih (i + 1) a1 acc' h
        exact ⟨⟨d1 + d2, hd1 + hd2, by omega, by omega, by omega, by omega⟩,
          fun hi => hI2 (hI1 hi)⟩

/-- A successful run of the recipient loop over a non-empty recipient list
starting at index i requires the remaining-account list to extend to index
i + length - 1. -/
theorem distLoop_ok_length (mintKey : Pubkey) (B : Nat)
    (rem : List AccountInfo) (now : Int) (rs : List Recipient) :
    ∀ (i : Nat) (acc acc' : DistAcc),
    distLoop mintKey B rem now rs i acc = some (.ok acc') →
    rs = [] ∨ i + rs.length ≤ rem.length := by
  induction rs with
  | nil => intro i acc acc' h; exact Or.inl rfl
  | cons r rest ih =>
    intro i acc acc' h
    simp only [distLoop] at h
    cases hata : rem[i]? with
    | none => rw [hata] at h; cases h
    | some ata =>
      have hi : i < rem.length := by
        by_contra hcon
        push_neg at hcon
        rw [List.getElem?_eq_none hcon] at hata
        cases hata
      simp only [hata] at h
      cases hstep : distStep mintKey B now r ata acc with
      | error e => simp only [hstep] at h; cases h
      | ok a1 =>
        simp only [hstep] at h
        rcases ih (i + 1) a1 acc' h with hnil | hle
        · right; subst hnil; simpa using hi
        · right; simp only [List.length_cons]; omega

/-- Running the recipient loop over an appended list is running it over the
first part and, when that succeeds, continuing over the second part at the
shifted index. -/
theorem distLoop_append (mintKey : Pubkey) (B : Nat) (rem : List AccountInfo)
    (now : Int) (xs ys : List Recipient) :
    ∀ (i : Nat) (acc : DistAcc),
    distLoop mintKey B rem now (xs ++ ys) i acc =
      match distLoop mintKey B rem now xs i acc with
      | some (.ok a) => distLoop mintKey B rem now ys (i + xs.length) a
      | other => other := by
  induction xs with
  | nil => intro i acc; simp [distLoop]
  | cons x xs ih =>
    intro i acc
    simp only [List.cons_append, distLoop]
    cases hata : rem[i]? with
    | none => rfl
    | some ata =>
      simp only []
      cases hstep : distStep mintKey B now x ata acc with
      | error e => rfl
      | ok a1 =>
        simp only [List.append_eq]
        rw [ih (i + 1) a1]
        have harith : i + 1 + xs.length = i + (x :: xs).length := by
          simp only [List.length_cons]; omega
        rw [harith]

/-- Fields of a successful fee phase: totals carried over, fee computed by
subtraction, unclaimed list installed in the configuration, and the vault
debited by the fee exactly when the fee was transferred. -/
theorem feePhase_ok (cfg : SplitConfig) (B : Nat) (mintKey tokenProg : Pubkey)
    (remaining : List AccountInfo) (acc : DistAcc) (res : ExecuteResult)
    (h : feePhase cfg B mintKey tokenProg remaining acc = .ok res) :
    acc.distributed ≤ B ∧ acc.held ≤ B - acc.distributed ∧
    res.distributed = acc.distributed ∧ res.held = acc.held ∧
    res.protocol_fee = B - acc.distributed - acc.held ∧
    res.config = { cfg with unclaimed_amounts := acc.unclaimed } ∧
    res.transfers = acc.transfers ∧
    ((res.feePaid = false ∧ res.vaultBal = acc.vaultBal) ∨
     (res.feePaid = true ∧ res.protocol_fee ≤ acc.vaultBal ∧
      res.vaultBal = acc.vaultBal - res.protocol_fee)) := by
  unfold feePhase at h
  by_cases h1 : B < acc.distributed
  · rw [if_pos h1] at h; cases h
  rw [if_neg h1] at h
  by_cases h2 : B - acc.distributed < acc.held
  · rw [if_pos h2] at h; cases h
  rw [if_neg h2] at h
  by_cases h3 : B - acc.distributed - acc.held = 0
  · rw [if_pos h3] at h
    cases h
    exact ⟨by omega, by omega, rfl, rfl, rfl, rfl, rfl, Or.inl ⟨rfl, rfl⟩⟩
  rw [if_neg h3] at h
  cases hlast : remaining.getLast? with
  | none => rw [hlast] at h; cases h
  | some p =>
    simp only [hlast] at h
    by_cases h4 : ¬ p.key = deriveProtocolATA mintKey tokenProg
    · rw [if_pos h4] at h; cases h
    rw [if_neg h4] at h
    by_cases h5 : ¬ p.is_writable = true
    · rw [if_pos h5] at h; cases h
    rw [if_neg h5] at h
    by_cases h6 : p.data_is_empty
    · rw [if_pos h6] at h
      cases h
      exact ⟨by omega, by omega, rfl, rfl, rfl, rfl, rfl, Or.inl ⟨rfl, rfl⟩⟩
    rw [if_neg h6] at h
    by_cases h7 : ¬(p.owner = tokenProgramID ∨ p.owner = token2022ProgramID)
    · rw [if_pos h7] at h; cases h
    rw [if_neg h7] at h
    cases hta : p.tokenAccount with
    | none => rw [hta] at h; cases h
    | some ta =>
      simp only [hta] at h
      by_cases h8 : ¬ ta.owner = PROTOCOL_WALLET
      · rw [if_pos h8] at h; cases h
      rw [if_neg h8] at h
      by_cases h9 : ¬ ta.mint = mintKey
      · rw [if_pos h9] at h; cases h
      rw [if_neg h9] at h
      by_cases h10 : p.transferOk = true ∧ B - acc.distributed - acc.held ≤ acc.vaultBal
      · rw [if_pos h10] at h
        cases h
        exact ⟨by omega, by omega, rfl, rfl, rfl, rfl, rfl,
          Or.inr ⟨rfl, h10.2, rfl⟩⟩
      · rw [if_neg h10] at h; cases h

/-! Concrete fixtures used by the claim theorems and witnesses. -/

/-- Example mint key used in concrete scenarios. -/
def exMint : Pubkey := 42

/-- Token program used in concrete scenarios. -/
def exTokenProg : Pubkey := tokenProgramID

/-- A fully valid, transfer-capable deposit account owned by `addr`. -/
def exGoodAta (addr : Pubkey) : AccountInfo :=
  { key := addr + 500, is_writable := true, data_is_empty := false,
    owner := tokenProgramID, tokenAccount := some { owner := addr, mint := exMint },
    transferOk := true }

/-- A missing (not yet created) deposit account: its data is empty. -/
def exMissingAta : AccountInfo :=
  { key := 999, is_writable := true, data_is_empty := true,
    owner := 0, tokenAccount := none, transferOk := false }

/-- The protocol fee account, existing and valid. -/
def exProtocolAta : AccountInfo :=
  { key := deriveProtocolATA exMint exTokenProg, is_writable := true,
    data_is_empty := false, owner := tokenProgramID,
    tokenAccount := some { owner := PROTOCOL_WALLET, mint := exMint },
    transferOk := true }

/-- The protocol fee account, correctly derived and writable but not yet
created (empty data). -/
def exProtocolAtaEmpty : AccountInfo :=
  { key := deriveProtocolATA exMint exTokenProg, is_writable := true,
    data_is_empty := true, owner := 0, tokenAccount := none,
    transferOk := false }

/-- Configuration with three recipients at 4000, 4000 and 1900 bps. -/
def exConfig : SplitConfig :=
  { version := 1, authority := 10, mint := exMint, vault := 11,
    recipients := [⟨1, 4000⟩, ⟨2, 4000⟩, ⟨3, 1900⟩],
    unclaimed_amounts := [], bump := 0 }

/-- The spec scenario: vault of 1000 units, recipient 2's account missing,
protocol account present. -/
def exCtx : ExecuteCtx :=
  { split_config := exConfig, vaultBal := 1000, mintKey := exMint,
    tokenProgKey := exTokenProg,
    remaining := [exGoodAta 1, exMissingAta, exGoodAta 3, exProtocolAta],
    now := 7 }

/-- Expected result of `execute_split exCtx`. -/
def exResult : ExecuteResult :=
  { config := { exConfig with unclaimed_amounts := [⟨2, 400, 7⟩] },
    vaultBal := 400, distributed := 590, held := 400, protocol_fee := 10,
    feePaid := true, transfers := [(1, 400), (3, 190)] }

/-! Claim theorems. -/

/-- C2: for 3 recipients at 4000/4000/1900 bps with recipient 2's deposit
account missing, distribute on a vault of 1000 units succeeds, transfers
400 units to recipient 1 and 190 units to recipient 3, records an unclaimed
liability of 400 for recipient 2, and computes a protocol fee of 10 units. -/
theorem execute_split_partial_failure_example :
    execute_split exCtx = some (.ok exResult) ∧
    exResult.transfers = [(1, 400), (3, 190)] ∧
    exResult.config.unclaimed_amounts = [⟨2, 400, 7⟩] ∧
    exResult.protocol_fee = 10 ∧ exResult.distributed = 590 ∧
    exResult.held = 400 ∧ exResult.vaultBal = 400 := by
  decide

/-- C1: after a successful `execute_split` on starting balance B, the vault
holds B minus the distributed total minus the fee actually transferred; the
fee is computed by subtraction (distributed + held + fee = B); and every held
unit is accounted for in the unclaimed-liability list, whose total grows by
exactly `held`. -/
theorem execute_split_conservation (ctx : ExecuteCtx) (res : ExecuteResult)
    (h : execute_split ctx = some (.ok res)) :
    res.vaultBal + res.distributed +
      (if res.feePaid then res.protocol_fee else 0) = ctx.vaultBal ∧
    res.distributed + res.held + res.protocol_fee = ctx.vaultBal ∧
    sumAmounts res.config.unclaimed_amounts =
      sumAmounts ctx.split_config.unclaimed_amounts + res.held := by
  unfold execute_split at h
  by_cases h0 : ctx.vaultBal = 0
  · rw [if_pos h0] at h
    cases h
    simp [h0]
  · rw [if_neg h0] at h
    cases hloop : distLoop ctx.mintKey ctx.vaultBal ctx.remaining ctx.now
        ctx.split_config.recipients 0 (initAcc ctx) with
    | none => rw [hloop] at h; cases h
    | some r =>
      cases r with
      | error e => simp only [hloop] at h; cases h
      | ok acc =>
        simp only [hloop, Option.some.injEq] at h
        obtain ⟨⟨d, hd, hD, hH, hV, hS⟩, -⟩ :=
          distLoop_ok ctx.mintKey ctx.vaultBal ctx.remaining ctx.now
            ctx.split_config.recipients 0 (initAcc ctx) acc hloop
        obtain ⟨hle1, hle2, hrd, hrh, hrf, hrc, -, hvb⟩ :=
          feePhase_ok ctx.split_config ctx.vaultBal ctx.mintKey
            ctx.tokenProgKey ctx.remaining acc res h
        simp only [initAcc] at hD hH hV hS
        have hcu : res.config.unclaimed_amounts = acc.unclaimed := by
          rw [hrc]
        rw [hcu]
        rcases hvb with ⟨hp, hv⟩ | ⟨hp, hfle, hv⟩ <;>
          simp only [hp, if_true, if_false, Bool.false_eq_true] <;>
          exact ⟨by omega, by omega, by omega⟩

/-- Witness for C1 at the concrete scenario of C2. -/
theorem execute_split_conservation_witness :
    exResult.vaultBal + exResult.distributed +
      (if exResult.feePaid then exResult.protocol_fee else 0) = exCtx.vaultBal ∧
    exResult.distributed + exResult.held + exResult.protocol_fee = exCtx.vaultBal ∧
    sumAmounts exResult.config.unclaimed_amounts =
      sumAmounts exCtx.split_config.unclaimed_amounts + exResult.held :=
  execute_split_conservation exCtx exResult (by decide)

/-- C3: claim fails with the nothing-to-claim error when no unclaimed entry
exists for the caller, and after a successful claim removed the caller's
entry (under the list's unique-key invariant), a repeated claim by the same
caller fails with the same error — the recorded amount is paid at most once. -/
theorem claim_unclaimed_exactly_once (ctx : ClaimCtx) :
    ((∀ e ∈ ctx.split_config.unclaimed_amounts, ¬ e.recipient = ctx.claimer) →
      claim_unclaimed ctx = .error .NothingToClaim) ∧
    (∀ (res : ClaimResult) (ctx2 : ClaimCtx),
      (ctx.split_config.unclaimed_amounts.map (fun e => e.recipient)).Nodup →
      claim_unclaimed ctx = .ok res →
      ctx2.split_config = res.config → ctx2.claimer = ctx.claimer →
      claim_unclaimed ctx2 = .error .NothingToClaim) := by
  constructor
  · intro hall
    unfold claim_unclaimed
    rw [(extractUnclaimed_none_iff _ _).mpr hall]
  · intro res ctx2 hnd hok hcfg hclaim
    unfold claim_unclaimed at hok
    cases hex : extractUnclaimed ctx.split_config.unclaimed_amounts ctx.claimer with
    | none => rw [hex] at hok; cases hok
    | some pr =>
      obtain ⟨entry, rest⟩ := pr
      simp only [hex] at hok
      split_ifs at hok with htr
      cases hok
      obtain ⟨hk, pre, suf, hu, hrest, hpre⟩ := extractUnclaimed_some _ _ _ _ hex
      have hnone : ∀ e ∈ rest, ¬ e.recipient = ctx.claimer := by
        rw [hrest]
        intro e he hek
        rw [hu] at hnd
        simp only [List.map_append, List.map_cons] at hnd
        rcases List.mem_append.mp he with hp | hs
        · exact hpre e hp hek
        · have hmem : ctx.claimer ∈ suf.map (fun e => e.recipient) :=
            List.mem_map.mpr ⟨e, hs, hek⟩
          rw [hk] at hnd
          have hnd2 := (List.nodup_append.mp hnd).2.1
          exact (List.nodup_cons.mp hnd2).1 hmem
      unfold claim_unclaimed
      rw [hcfg, hclaim]
      rw [(extractUnclaimed_none_iff _ _).mpr hnone]

/-- Claim context with a single 50-unit liability owed to identity 7. -/
def exClaimCtx : ClaimCtx :=
  { split_config := { exConfig with unclaimed_amounts := [⟨7, 50, 0⟩] },
    vaultBal := 100, claimer := 7, transferOk := true }

/-- Result of the successful first claim of `exClaimCtx`. -/
def exClaimResult : ClaimResult :=
  { config := { exConfig with unclaimed_amounts := [] }, vaultBal := 50,
    amount := 50 }

/-- Second claim context, on the state committed by the first claim. -/
def exClaimCtx2 : ClaimCtx :=
  { split_config := exClaimResult.config, vaultBal := 50, claimer := 7,
    transferOk := true }

/-- Witness for C3: the repeated claim on the concrete scenario fails. -/
theorem claim_unclaimed_exactly_once_witness :
    claim_unclaimed exClaimCtx2 = .error .NothingToClaim :=
  (claim_unclaimed_exactly_once exClaimCtx).2 exClaimResult exClaimCtx2
    (by decide) (by decide) (by decide) (by decide)

/-- C4: claim is atomic with respect to the transfer: an entry is removed
only in executions where the transfer primitive reports success, and on any
error the committed configuration state is unchanged, so a transfer failure
does not destroy the liability record. -/
theorem claim_unclaimed_atomic (ctx : ClaimCtx) :
    (∀ res, claim_unclaimed ctx = .ok res →
      ctx.transferOk = true ∧ res.amount ≤ ctx.vaultBal) ∧
    (∀ entry rest,
      extractUnclaimed ctx.split_config.unclaimed_amounts ctx.claimer =
        some (entry, rest) →
      ¬(ctx.transferOk = true ∧ entry.amount ≤ ctx.vaultBal) →
      claim_unclaimed ctx = .error .ExternalTransferError ∧
      claimCommittedConfig ctx = ctx.split_config) ∧
    (∀ e, claim_unclaimed ctx = .error e →
      claimCommittedConfig ctx = ctx.split_config) := by
  refine ⟨?_, ?_, ?_⟩
  · intro res hok
    unfold claim_unclaimed at hok
    cases hex : extractUnclaimed ctx.split_config.unclaimed_amounts ctx.claimer with
    | none => rw [hex] at hok; cases hok
    | some pr =>
      obtain ⟨entry, rest⟩ := pr
      simp only [hex] at hok
      split_ifs at hok with htr
      cases hok
      exact ⟨htr.1, htr.2⟩
  · intro entry rest hex htr
    have herr : claim_unclaimed ctx = .error .ExternalTransferError := by
      unfold claim_unclaimed
      simp only [hex]
      rw [if_neg htr]
    refine ⟨herr, ?_⟩
    unfold claimCommittedConfig
    rw [herr]
  · intro e herr
    unfold claimCommittedConfig
    rw [herr]

/-- Claim context whose transfer primitive fails. -/
def exClaimCtxFail : ClaimCtx :=
  { split_config := { exConfig with unclaimed_amounts := [⟨7, 50, 0⟩] },
    vaultBal := 100, claimer := 7, transferOk := false }

/-- Witness for C4: with a failing transfer, the claim errors and the
liability record survives in the committed state. -/
theorem claim_unclaimed_atomic_witness :
    claim_unclaimed exClaimCtxFail = .error .ExternalTransferError ∧
    claimCommittedConfig exClaimCtxFail = exClaimCtxFail.split_config :=
  (claim_unclaimed_atomic exClaimCtxFail).2.1 ⟨7, 50, 0⟩ []
    (by decide) (by decide)

/-- C8: when the computed protocol fee is zero no fee transfer is attempted,
and when the fee is positive but the (correctly derived, writable) protocol
deposit account has not been created yet, the fee transfer is skipped without
error: the call succeeds, the fee stays in the vault (the vault is not
debited by the fee), and feePaid is false. -/
theorem execute_split_fee_skip (ctx : ExecuteCtx) (acc : DistAcc)
    (h0 : ¬ ctx.vaultBal = 0)
    (hloop : distLoop ctx.mintKey ctx.vaultBal ctx.remaining ctx.now
      ctx.split_config.recipients 0 (initAcc ctx) = some (.ok acc))
    (hle1 : acc.distributed ≤ ctx.vaultBal)
    (hle2 : acc.held ≤ ctx.vaultBal - acc.distributed) :
    (ctx.vaultBal - acc.distributed - acc.held = 0 →
      execute_split ctx = some (.ok (ExecuteResult.mk
        { ctx.split_config with unclaimed_amounts := acc.unclaimed }
        acc.vaultBal acc.distributed acc.held
        (ctx.vaultBal - acc.distributed - acc.held) false acc.transfers))) ∧
    (∀ p, ctx.remaining.getLast? = some p →
      p.key = deriveProtocolATA ctx.mintKey ctx.tokenProgKey →
      p.is_writable = true → p.data_is_empty = true →
      execute_split ctx = some (.ok (ExecuteResult.mk
        { ctx.split_config with unclaimed_amounts := acc.unclaimed }
        acc.vaultBal acc.distributed acc.held
        (ctx.vaultBal - acc.distributed - acc.held) false acc.transfers))) := by
  constructor
  · intro hz
    unfold execute_split
    rw [if_neg h0, hloop]
    simp only []
    unfold feePhase
    rw [if_neg (by omega : ¬ ctx.vaultBal < acc.distributed),
      if_neg (by omega : ¬ ctx.vaultBal - acc.distributed < acc.held),
      if_pos hz]
  · intro p hlast hkey hw hde
    unfold execute_split
    rw [if_neg h0, hloop]
    simp only []
    unfold feePhase
    rw [if_neg (by omega : ¬ ctx.vaultBal < acc.distributed),
      if_neg (by omega : ¬ ctx.vaultBal - acc.distributed < acc.held)]
    by_cases hz : ctx.vaultBal - acc.distributed - acc.held = 0
    · rw [if_pos hz]
    · rw [if_neg hz]
      rw [hlast]
      simp only []
      rw [if_neg (not_not_intro hkey), if_neg (not_not_intro hw), if_pos hde]

/-- The fee-skip scenario: the C2 scenario, but the protocol account does not
exist yet. -/
def exCtxFeeSkip : ExecuteCtx :=
  { split_config := exConfig, vaultBal := 1000, mintKey := exMint,
    tokenProgKey := exTokenProg,
    remaining := [exGoodAta 1, exMissingAta, exGoodAta 3, exProtocolAtaEmpty],
    now := 7 }

/-- Loop accumulator reached in the fee-skip scenario. -/
def exAccFeeSkip : DistAcc :=
  { unclaimed := [⟨2, 400, 7⟩], vaultBal := 410, distributed := 590,
    held := 400, transfers := [(1, 400), (3, 190)] }

/-- Witness for C8: with a positive 10-unit fee and an uncreated protocol
account, the call succeeds without transferring the fee. -/
theorem execute_split_fee_skip_witness :
    execute_split exCtxFeeSkip = some (.ok (ExecuteResult.mk
      { exCtxFeeSkip.split_config with
        unclaimed_amounts := exAccFeeSkip.unclaimed }
      exAccFeeSkip.vaultBal exAccFeeSkip.distributed exAccFeeSkip.held
      (exCtxFeeSkip.vaultBal - exAccFeeSkip.distributed - exAccFeeSkip.held)
      false exAccFeeSkip.transfers)) :=
  (execute_split_fee_skip exCtxFeeSkip exAccFeeSkip (by decide) (by decide)
    (by decide) (by decide)).2 exProtocolAtaEmpty (by decide) (by decide)
    (by decide) (by decide)

/-- C9 counterexample: a call with a non-zero vault balance, fewer remaining
accounts (1) than recipients (2) and a full liability table fails with the
clean TooManyUnclaimedEntries error raised while processing recipient 1 —
it does not panic, refuting the claim that every such call panics. -/
def cexShortfallConfig : SplitConfig :=
  { version := 1, authority := 10, mint := exMint, vault := 11,
    recipients := [⟨1, 4000⟩, ⟨2, 5900⟩],
    unclaimed_amounts := (List.range 20).map (fun i => ⟨100 + i, 1, 0⟩),
    bump := 0 }

/-- The execution context of the C9 counterexample. -/
def cexShortfallCtx : ExecuteCtx :=
  { split_config := cexShortfallConfig, vaultBal := 1000, mintKey := exMint,
    tokenProgKey := exTokenProg, remaining := [exMissingAta], now := 7 }

/-- C9 counterexample theorem: shortfall call returning a clean error, not a
panic. -/
theorem execute_split_shortfall_clean_error_cex :
    0 < cexShortfallCtx.vaultBal ∧
    cexShortfallCtx.remaining.length <
      cexShortfallCtx.split_config.recipients.length ∧
    execute_split cexShortfallCtx =
      some (.error .TooManyUnclaimedEntries) := by
  decide

/-- C9 (amended): with a non-zero vault balance and strictly fewer remaining
accounts than configured recipients, execute_split never succeeds: it panics
on the unguarded out-of-bounds index unless processing of an earlier
recipient raises a clean error first; in particular, whenever the recipients
that do have accounts are processed without error, the call panics.  Unlike
execute_split, create and update check the account count first and fail with
a clean count-mismatch error. -/
theorem execute_split_account_shortfall (ctx : ExecuteCtx)
    (h0 : 0 < ctx.vaultBal)
    (hlt : ctx.remaining.length < ctx.split_config.recipients.length) :
    (∀ res, ¬ execute_split ctx = some (.ok res)) ∧
    (∀ acc', distLoop ctx.mintKey ctx.vaultBal ctx.remaining ctx.now
        (ctx.split_config.recipients.take ctx.remaining.length) 0
        (initAcc ctx) = some (.ok acc') →
      execute_split ctx = none) ∧
    (∀ (accs : CreateAccounts) (mint : Pubkey) (rs : List Recipient)
        (rem : List AccountInfo),
      MIN_RECIPIENTS ≤ rs.length → rs.length ≤ MAX_RECIPIENTS →
      (rs.map (fun r => r.percentage_bps)).sum = REQUIRED_SPLIT_TOTAL →
      ¬ rem.length = rs.length →
      create_split_config accs mint rs rem =
        .error .RecipientATACountMismatch) ∧
    (∀ (uctx : UpdateCtx) (nr : List Recipient),
      uctx.vaultBal = 0 →
      MIN_RECIPIENTS ≤ nr.length → nr.length ≤ MAX_RECIPIENTS →
      (nr.map (fun r => r.percentage_bps)).sum = REQUIRED_SPLIT_TOTAL →
      ¬ uctx.remaining.length = nr.length →
      update_split_config uctx nr = .error .RecipientATACountMismatch) := by
  refine ⟨?_, ?_, ?_, ?_⟩
  · intro res h
    unfold execute_split at h
    rw [if_neg (by omega)] at h
    cases hloop : distLoop ctx.mintKey ctx.vaultBal ctx.remaining ctx.now
        ctx.split_config.recipients 0 (initAcc ctx) with
    | none => rw [hloop] at h; cases h
    | some r =>
      cases r with
      | error e => simp only [hloop] at h; cases h
      | ok acc =>
        rcases distLoop_ok_length ctx.mintKey ctx.vaultBal ctx.remaining
            ctx.now ctx.split_config.recipients 0 (initAcc ctx) acc hloop with
          hnil | hle
        · rw [hnil] at hlt; simp at hlt
        · omega
  · intro acc' hpre
    unfold execute_split
    rw [if_neg (by omega)]
    rw [show ctx.split_config.recipients =
        ctx.split_config.recipients.take ctx.remaining.length ++
          ctx.split_config.recipients.drop ctx.remaining.length from
      (List.take_append_drop _ _).symm]
    rw [distLoop_append]
    rw [hpre]
    simp only [List.length_take]
    rw [show min ctx.remaining.length ctx.split_config.recipients.length =
        ctx.remaining.length by omega]
    rw [List.drop_eq_getElem_cons hlt]
    simp only [distLoop, Nat.zero_add]
    rw [List.getElem?_eq_none (le_refl _)]
  · intro accs mint rs rem h1 h2 hsum hcnt
    unfold create_split_config
    rw [if_neg (not_not_intro ⟨h1, h2⟩), if_neg (not_not_intro hsum),
      if_pos hcnt]
  · intro uctx nr hv h1 h2 hsum hcnt
    unfold update_split_config
    rw [if_neg (not_not_intro hv), if_neg (not_not_intro ⟨h1, h2⟩),
      if_neg (not_not_intro hsum), if_pos hcnt]

/-- Context with two recipients but an empty remaining-account list. -/
def exPanicCtx : ExecuteCtx :=
  { split_config := exConfig, vaultBal := 5, mintKey := exMint,
    tokenProgKey := exTokenProg, remaining := [], now := 7 }

/-- Witness for C9: the concrete shortfall call with no earlier clean error
panics (models the Rust index panic). -/
theorem execute_split_account_shortfall_witness :
    execute_split exPanicCtx = none :=
  (execute_split_account_shortfall exPanicCtx (by decide) (by decide)).2.1
    (initAcc exPanicCtx) (by decide)

/-- The per-recipient checks `update_split_config` actually applies: the
reference account exists, is owned by a recognized token program (enforced
inside Anchor's InterfaceAccount::try_from), deserializes as a token
account, and its owner and mint match the recipient and configuration. -/
def updateCheckOk (mintKey : Pubkey) (r : Recipient) (ata : AccountInfo) : Prop :=
  ata.data_is_empty = false ∧
  (ata.owner = tokenProgramID ∨ ata.owner = token2022ProgramID) ∧
  ∃ ta, ata.tokenAccount = some ta ∧ ta.owner = r.address ∧ ta.mint = mintKey

/-- The per-recipient update check succeeds exactly on `updateCheckOk`. -/
theorem updateCheck_ok_iff (mintKey : Pubkey) (r : Recipient)
    (ata : AccountInfo) :
    updateCheck mintKey r ata = .ok () ↔ updateCheckOk mintKey r ata := by
  cases hta : ata.tokenAccount with
  | none =>
    simp only [updateCheck, updateCheckOk, hta]
    split_ifs <;> simp
  | some ta =>
    simp only [updateCheck, updateCheckOk, hta]
    split_ifs with h1 h2 h3 h4 <;> simp_all

/-- The update validation loop succeeds exactly when every recipient passes
`updateCheckOk` against its order-aligned reference account. -/
theorem updateLoop_ok_iff (mintKey : Pubkey) (rs : List Recipient) :
    ∀ (atas : List AccountInfo), atas.length = rs.length →
    (updateLoop mintKey rs atas = .ok () ↔
      ∀ p ∈ rs.zip atas, updateCheckOk mintKey p.1 p.2) := by
  induction rs with
  | nil => intro atas hlen; simp [updateLoop]
  | cons r rest ih =>
    intro atas hlen
    cases atas with
    | nil => simp at hlen
    | cons a atas' =>
      simp only [updateLoop, List.zip_cons_cons]
      have hlen' : atas'.length = rest.length := by simpa using hlen
      cases hchk : updateCheck mintKey r a with
      | error e =>
        simp only [hchk]
        constructor
        · intro h; cases h
        · intro hall
          have hok2 := (updateCheck_ok_iff mintKey r a).mpr
            (hall (r, a) (by simp))
          rw [hchk] at hok2; cases hok2
      | ok v =>
        cases v
        simp only [hchk]
        rw [ih atas' hlen']
        have hok := (updateCheck_ok_iff mintKey r a).mp hchk
        simp [List.forall_mem_cons, hok]

/-- C5 counterexample mint: a recipient list containing a zero percentage,
with existing token-program-owned reference accounts, is accepted by update
but rejected by create with the zero-percentage error, so update does not
apply the same per-recipient validation as create. -/
def cexUpdMint : Pubkey := 5

/-- New recipients for the counterexample: the first has a zero percentage
(sum still exactly 9900). -/
def cexUpdRecipients : List Recipient := [⟨21, 0⟩, ⟨22, 9900⟩]

/-- Reference accounts for the counterexample: existing, token-program-owned
and deserializable with matching owner/mint — but writable, where create
demands read-only accounts. -/
def cexUpdAtas : List AccountInfo :=
  [{ key := 700, is_writable := true, data_is_empty := false,
     owner := tokenProgramID,
     tokenAccount := some { owner := 21, mint := cexUpdMint },
     transferOk := true },
   { key := 701, is_writable := true, data_is_empty := false,
     owner := tokenProgramID,
     tokenAccount := some { owner := 22, mint := cexUpdMint },
     transferOk := true }]

/-- The configuration being updated in the counterexample. -/
def cexUpdConfig : SplitConfig :=
  { version := 1, authority := 10, mint := cexUpdMint, vault := 11,
    recipients := [⟨8, 4950⟩, ⟨9, 4950⟩], unclaimed_amounts := [], bump := 0 }

/-- The update context of the counterexample (empty vault). -/
def cexUpdCtx : UpdateCtx :=
  { split_config := cexUpdConfig, vaultBal := 0, remaining := cexUpdAtas }

/-- Create accounts for the counterexample comparison call. -/
def cexUpdAccs : CreateAccounts := { authority := 10, vaultKey := 11, bump := 0 }

/-- C5 counterexample theorem: update accepts the very input that create
rejects with the zero-percentage error (its writable accounts would also
violate the read-only check of create). -/
theorem update_split_config_validation_cex :
    update_split_config cexUpdCtx cexUpdRecipients =
      .ok { cexUpdConfig with recipients := cexUpdRecipients } ∧
    create_split_config cexUpdAccs cexUpdMint cexUpdRecipients cexUpdAtas =
      .error .ZeroPercentage := by
  decide

/-- C5 (amended): update applies the same recipient-count, percentage-sum and
reference-account-count validation as create, and per recipient the
existence check, the token-program-owner check (enforced inside account
deserialization and reported as RecipientATAInvalid rather than create's
RecipientATAInvalidOwner), deserialization, and the owner-match and
mint-match checks; it omits not only the duplicate-identity check but also
the zero-address, zero-percentage and read-only checks of create. -/
theorem update_split_config_validation (ctx : UpdateCtx) (nr : List Recipient)
    (cfg' : SplitConfig) :
    update_split_config ctx nr = .ok cfg' ↔
      (ctx.vaultBal = 0 ∧ MIN_RECIPIENTS ≤ nr.length ∧
       nr.length ≤ MAX_RECIPIENTS ∧
       (nr.map (fun r => r.percentage_bps)).sum = REQUIRED_SPLIT_TOTAL ∧
       ctx.remaining.length = nr.length ∧
       (∀ p ∈ nr.zip ctx.remaining, updateCheckOk ctx.split_config.mint p.1 p.2) ∧
       cfg' = { ctx.split_config with recipients := nr }) := by
  unfold update_split_config
  by_cases hA : ctx.vaultBal = 0
  swap
  · rw [if_pos hA]
    exact iff_of_false (fun h => Except.noConfusion h) (fun hr => hA hr.1)
  rw [if_neg (not_not_intro hA)]
  by_cases hB : MIN_RECIPIENTS ≤ nr.length ∧ nr.length ≤ MAX_RECIPIENTS
  swap
  · rw [if_pos hB]
    exact iff_of_false (fun h => Except.noConfusion h)
      (fun hr => hB ⟨hr.2.1, hr.2.2.1⟩)
  rw [if_neg (not_not_intro hB)]
  by_cases hC : (nr.map (fun r => r.percentage_bps)).sum = REQUIRED_SPLIT_TOTAL
  swap
  · rw [if_pos hC]
    exact iff_of_false (fun h => Except.noConfusion h)
      (fun hr => hC hr.2.2.2.1)
  rw [if_neg (not_not_intro hC)]
  by_cases hD : ctx.remaining.length = nr.length
  swap
  · rw [if_pos hD]
    exact iff_of_false (fun h => Except.noConfusion h)
      (fun hr => hD hr.2.2.2.2.1)
  rw [if_neg (not_not_intro hD)]
  cases hloop : updateLoop ctx.split_config.mint nr ctx.remaining with
  | error e =>
    simp only [hloop]
    refine iff_of_false (fun h => Except.noConfusion h) ?_
    rintro ⟨-, -, -, -, -, hall, -⟩
    have hok2 := (updateLoop_ok_iff ctx.split_config.mint nr
      ctx.remaining hD).mpr hall
    rw [hloop] at hok2; cases hok2
  | ok v =>
    cases v
    simp only [hloop, Except.ok.injEq]
    constructor
    · intro h
      exact ⟨hA, hB.1, hB.2, hC, hD,
        (updateLoop_ok_iff ctx.split_config.mint nr ctx.remaining hD).mp hloop,
        h.symm⟩
    · rintro ⟨-, -, -, -, -, -, rfl⟩
      rfl

/-- Decidability of the per-recipient update check predicate, via the
executable check. -/
instance updateCheckOkDec (mintKey : Pubkey) (r : Recipient)
    (ata : AccountInfo) : Decidable (updateCheckOk mintKey r ata) :=
  decidable_of_iff (updateCheck mintKey r ata = .ok ())
    (updateCheck_ok_iff mintKey r ata)

/-- A valid update input for the C5 witness. -/
def exUpdGoodAtas : List AccountInfo :=
  [{ key := 800, is_writable := false, data_is_empty := false,
     owner := tokenProgramID,
     tokenAccount := some { owner := 21, mint := cexUpdMint },
     transferOk := true },
   { key := 801, is_writable := false, data_is_empty := false,
     owner := tokenProgramID,
     tokenAccount := some { owner := 22, mint := cexUpdMint },
     transferOk := true }]

/-- New recipients for the C5 witness. -/
def exUpdGoodRecipients : List Recipient := [⟨21, 4000⟩, ⟨22, 5900⟩]

/-- The update context for the C5 witness. -/
def exUpdGoodCtx : UpdateCtx :=
  { split_config := cexUpdConfig, vaultBal := 0, remaining := exUpdGoodAtas }

/-- Witness for C5 (amended): the characterization applied at a concrete
valid input yields a successful update. -/
theorem update_split_config_validation_witness :
    update_split_config exUpdGoodCtx exUpdGoodRecipients =
      .ok { exUpdGoodCtx.split_config with recipients := exUpdGoodRecipients } :=
  (update_split_config_validation exUpdGoodCtx exUpdGoodRecipients
    { exUpdGoodCtx.split_config with recipients := exUpdGoodRecipients }).mpr
    ⟨rfl, by decide, by decide, by decide, by decide, by decide, rfl⟩

/-- C6: update succeeds only when the vault balance is exactly zero,
rejecting with the vault-not-empty error (and no committed state change)
otherwise; on success it replaces recipients wholesale and leaves the
unclaimed list, authority, mint, vault, version and bump unchanged. -/
theorem update_split_config_empty_vault_frame (ctx : UpdateCtx)
    (nr : List Recipient) :
    (¬ ctx.vaultBal = 0 →
      update_split_config ctx nr = .error .VaultNotEmpty ∧
      updateCommittedConfig ctx nr = ctx.split_config) ∧
    (∀ cfg', update_split_config ctx nr = .ok cfg' →
      ctx.vaultBal = 0 ∧ cfg'.recipients = nr ∧
      cfg'.unclaimed_amounts = ctx.split_config.unclaimed_amounts ∧
      cfg'.authority = ctx.split_config.authority ∧
      cfg'.mint = ctx.split_config.mint ∧
      cfg'.vault = ctx.split_config.vault ∧
      cfg'.version = ctx.split_config.version ∧
      cfg'.bump = ctx.split_config.bump) := by
  constructor
  · intro h1
    have he : update_split_config ctx nr = .error .VaultNotEmpty := by
      unfold update_split_config
      rw [if_pos h1]
    refine ⟨he, ?_⟩
    unfold updateCommittedConfig
    rw [he]
  · intro cfg' h
    unfold update_split_config at h
    by_cases hA : ctx.vaultBal = 0
    swap
    · rw [if_pos hA] at h; cases h
    rw [if_neg (not_not_intro hA)] at h
    by_cases hB : MIN_RECIPIENTS ≤ nr.length ∧ nr.length ≤ MAX_RECIPIENTS
    swap
    · rw [if_pos hB] at h; cases h
    rw [if_neg (not_not_intro hB)] at h
    by_cases hC : (nr.map (fun r => r.percentage_bps)).sum = REQUIRED_SPLIT_TOTAL
    swap
    · rw [if_pos hC] at h; cases h
    rw [if_neg (not_not_intro hC)] at h
    by_cases hD : ctx.remaining.length = nr.length
    swap
    · rw [if_pos hD] at h; cases h
    rw [if_neg (not_not_intro hD)] at h
    cases hloop : updateLoop ctx.split_config.mint nr ctx.remaining with
    | error e => rw [hloop] at h; cases h
    | ok v =>
      cases v
      simp only [hloop] at h
      cases h
      exact ⟨hA, rfl, rfl, rfl, rfl, rfl, rfl, rfl⟩

/-- Witness for C6: a non-empty vault makes the concrete update fail with
VaultNotEmpty and leave the configuration unchanged. -/
theorem update_split_config_empty_vault_frame_witness :
    update_split_config
        { split_config := cexUpdConfig, vaultBal := 3,
          remaining := exUpdGoodAtas } exUpdGoodRecipients =
      .error .VaultNotEmpty ∧
    updateCommittedConfig
        { split_config := cexUpdConfig, vaultBal := 3,
          remaining := exUpdGoodAtas } exUpdGoodRecipients = cexUpdConfig :=
  (update_split_config_empty_vault_frame
    { split_config := cexUpdConfig, vaultBal := 3,
      remaining := exUpdGoodAtas } exUpdGoodRecipients).1 (by decide)

/-- A reference account that passes every ATA check of create: read-only,
existing, owned by a token program, deserializing with matching owner/mint. -/
def fullyValidAta (mintKey : Pubkey) (r : Recipient) (ata : AccountInfo) : Prop :=
  ata.is_writable = false ∧ ata.data_is_empty = false ∧
  (ata.owner = tokenProgramID ∨ ata.owner = token2022ProgramID) ∧
  ∃ ta, ata.tokenAccount = some ta ∧ ta.owner = r.address ∧ ta.mint = mintKey

/-- On a recipient with non-zero identity and percentage and a fully valid
account, the create check reduces to the duplicate test alone. -/
theorem createCheck_valid (mintKey : Pubkey) (r : Recipient)
    (rest : List Recipient) (ata : AccountInfo)
    (h0 : ¬ r.address = 0) (hp : ¬ r.percentage_bps = 0)
    (hva : fullyValidAta mintKey r ata) :
    createCheck mintKey r rest ata =
      if rest.any (fun s => s.address = r.address) then
        .error .DuplicateRecipient
      else .ok () := by
  obtain ⟨hw, he, ho, ta, hta, hown, hmint⟩ := hva
  unfold createCheck
  rw [if_neg h0, if_neg hp]
  by_cases hdup : rest.any (fun s => s.address = r.address) = true
  · rw [if_pos hdup, if_pos hdup]
  · rw [if_neg hdup, if_neg hdup,
      if_neg (by simp [hw] : ¬(ata.is_writable = true)),
      if_neg (by simp [he] : ¬(ata.data_is_empty = true)),
      if_neg (not_not_intro ho)]
    simp only [hta]
    rw [if_neg (not_not_intro hown), if_neg (not_not_intro hmint)]

/-- A successful create check implies the recipient's address does not recur
among the later recipients. -/
theorem createCheck_ok_nodup (mintKey : Pubkey) (r : Recipient)
    (rest : List Recipient) (ata : AccountInfo)
    (h : createCheck mintKey r rest ata = .ok ()) :
    ∀ s ∈ rest, ¬ s.address = r.address := by
  intro s hs hsa
  unfold createCheck at h
  by_cases h0 : r.address = 0
  · rw [if_pos h0] at h; cases h
  rw [if_neg h0] at h
  by_cases hp : r.percentage_bps = 0
  · rw [if_pos hp] at h; cases h
  rw [if_neg hp] at h
  have hdup : rest.any (fun x => x.address = r.address) = true :=
    List.any_eq_true.mpr ⟨s, hs, by simp [hsa]⟩
  rw [if_pos hdup] at h
  cases h

/-- A successful create validation loop implies pairwise-distinct recipient
addresses. -/
theorem createLoop_ok_nodup (mintKey : Pubkey) (rs : List Recipient) :
    ∀ (atas : List AccountInfo), atas.length = rs.length →
    createLoop mintKey rs atas = .ok () →
    (rs.map (fun r => r.address)).Nodup := by
  induction rs with
  | nil => intro atas hlen h; simp
  | cons r rest ih =>
    intro atas hlen h
    cases atas with
    | nil => simp at hlen
    | cons a atas' =>
      simp only [createLoop] at h
      cases hchk : createCheck mintKey r rest a with
      | error e => rw [hchk] at h; cases h
      | ok v =>
        cases v
        simp only [hchk] at h
        simp only [List.map_cons, List.nodup_cons]
        constructor
        · intro hmem
          obtain ⟨s, hs, hsa⟩ := List.mem_map.mp hmem
          exact createCheck_ok_nodup mintKey r rest a hchk s hs hsa
        · exact ih atas' (by simpa using hlen) h

/-- With non-zero identities and percentages and fully valid accounts, a
recipient list with a duplicate identity makes the create loop fail with the
duplicate error. -/
theorem createLoop_dup (mintKey : Pubkey) (rs : List Recipient) :
    ∀ (atas : List AccountInfo), atas.length = rs.length →
    (∀ r ∈ rs, ¬ r.address = 0 ∧ ¬ r.percentage_bps = 0) →
    (∀ p ∈ rs.zip atas, fullyValidAta mintKey p.1 p.2) →
    ¬ (rs.map (fun r => r.address)).Nodup →
    createLoop mintKey rs atas = .error .DuplicateRecipient := by
  induction rs with
  | nil => intro atas hlen hnz hv hdup; simp at hdup
  | cons r rest ih =>
    intro atas hlen hnz hv hdup
    cases atas with
    | nil => simp at hlen
    | cons a atas' =>
      obtain ⟨h0, hp⟩ := hnz r (List.mem_cons_self r rest)
      have hva : fullyValidAta mintKey r a :=
        hv (r, a) (by rw [List.zip_cons_cons]; exact List.mem_cons_self _ _)
      simp only [createLoop]
      rw [createCheck_valid mintKey r rest a h0 hp hva]
      by_cases hd : rest.any (fun s => s.address = r.address) = true
      · rw [if_pos hd]
      · rw [if_neg hd]
        simp only []
        apply ih atas' (by simpa using hlen)
        · intro x hx; exact hnz x (List.mem_cons_of_mem _ hx)
        · intro p hp2
          apply hv p
          rw [List.zip_cons_cons]
          exact List.mem_cons_of_mem _ hp2
        · intro hcon
          apply hdup
          simp only [List.map_cons, List.nodup_cons]
          refine ⟨?_, hcon⟩
          intro hmem
          obtain ⟨s, hs, hsa⟩ := List.mem_map.mp hmem
          exact hd (List.any_eq_true.mpr ⟨s, hs, by simp [hsa]⟩)

/-- Create accounts used by the concrete create scenarios. -/
def exCreateAccs : CreateAccounts := { authority := 10, vaultKey := 11, bump := 0 }

/-- A read-only, fully valid reference account for `addr`. -/
def exCreateAta (addr : Pubkey) : AccountInfo :=
  { key := addr + 600, is_writable := false, data_is_empty := false,
    owner := tokenProgramID,
    tokenAccount := some { owner := addr, mint := exMint },
    transferOk := true }

/-- A valid two-recipient set (4000 + 5900 = 9900 bps). -/
def exPair2 : List Recipient := [⟨1, 4000⟩, ⟨2, 5900⟩]

/-- Reference accounts for `exPair2`. -/
def exPairAtas2 : List AccountInfo := [exCreateAta 1, exCreateAta 2]

/-- A valid twenty-recipient set (20 x 495 = 9900 bps). -/
def exRecipients20 : List Recipient :=
  (List.range 20).map (fun i => ⟨i + 1, 495⟩)

/-- Reference accounts for `exRecipients20`. -/
def exAtas20 : List AccountInfo :=
  (List.range 20).map (fun i => exCreateAta (i + 1))

/-- C7: create rejects recipient sets of size 0, 1 and 21 with the
invalid-count error and accepts sizes 2 and 20; within the count bounds a
wrong percentage sum is rejected with the split-total error, and a duplicate
identity is always rejected — with the distinct duplicate error when
identities and percentages are otherwise valid — and a validation failure
persists no state. -/
theorem create_split_config_validation :
    (∀ (accs : CreateAccounts) (mint : Pubkey) (rs : List Recipient)
        (rem : List AccountInfo),
      rs.length = 0 ∨ rs.length = 1 ∨ rs.length = 21 →
      create_split_config accs mint rs rem = .error .InvalidRecipientCount) ∧
    (exPair2.length = 2 ∧
      create_split_config exCreateAccs exMint exPair2 exPairAtas2 =
        .ok { version := 1, authority := 10, mint := exMint, vault := 11,
              recipients := exPair2, unclaimed_amounts := [], bump := 0 }) ∧
    (exRecipients20.length = 20 ∧
      create_split_config exCreateAccs exMint exRecipients20 exAtas20 =
        .ok { version := 1, authority := 10, mint := exMint, vault := 11,
              recipients := exRecipients20, unclaimed_amounts := [],
              bump := 0 }) ∧
    (∀ (accs : CreateAccounts) (mint : Pubkey) (rs : List Recipient)
        (rem : List AccountInfo),
      MIN_RECIPIENTS ≤ rs.length → rs.length ≤ MAX_RECIPIENTS →
      ¬ (rs.map (fun r => r.percentage_bps)).sum = REQUIRED_SPLIT_TOTAL →
      create_split_config accs mint rs rem = .error .InvalidSplitTotal) ∧
    (∀ (accs : CreateAccounts) (mint : Pubkey) (rs : List Recipient)
        (rem : List AccountInfo) (cfg : SplitConfig),
      ¬ (rs.map (fun r => r.address)).Nodup →
      ¬ create_split_config accs mint rs rem = .ok cfg) ∧
    (∀ (accs : CreateAccounts) (mint : Pubkey) (rs : List Recipient)
        (rem : List AccountInfo),
      MIN_RECIPIENTS ≤ rs.length → rs.length ≤ MAX_RECIPIENTS →
      (rs.map (fun r => r.percentage_bps)).sum = REQUIRED_SPLIT_TOTAL →
      rem.length = rs.length →
      (∀ r ∈ rs, ¬ r.address = 0 ∧ ¬ r.percentage_bps = 0) →
      (∀ p ∈ rs.zip rem, fullyValidAta mint p.1 p.2) →
      ¬ (rs.map (fun r => r.address)).Nodup →
      create_split_config accs mint rs rem = .error .DuplicateRecipient) ∧
    (∀ (accs : CreateAccounts) (mint : Pubkey) (rs : List Recipient)
        (rem : List AccountInfo) (e : ErrorCode),
      create_split_config accs mint rs rem = .error e →
      createPersistedConfig accs mint rs rem = none) := by
  refine ⟨?_, ⟨by decide, by decide⟩, ⟨by decide, by decide⟩, ?_, ?_, ?_, ?_⟩
  · intro accs mint rs rem hlen
    have hc : ¬(MIN_RECIPIENTS ≤ rs.length ∧ rs.length ≤ MAX_RECIPIENTS) := by
      rcases hlen with h | h | h <;> rw [h] <;> decide
    unfold create_split_config
    rw [if_pos hc]
  · intro accs mint rs rem h1 h2 hsum
    unfold create_split_config
    rw [if_neg (not_not_intro ⟨h1, h2⟩), if_pos hsum]
  · intro accs mint rs rem cfg hdup h
    unfold create_split_config at h
    by_cases hA : MIN_RECIPIENTS ≤ rs.length ∧ rs.length ≤ MAX_RECIPIENTS
    swap
    · rw [if_pos hA] at h; cases h
    rw [if_neg (not_not_intro hA)] at h
    by_cases hBs : (rs.map (fun r => r.percentage_bps)).sum = REQUIRED_SPLIT_TOTAL
    swap
    · rw [if_pos hBs] at h; cases h
    rw [if_neg (not_not_intro hBs)] at h
    by_cases hCc : rem.length = rs.length
    swap
    · rw [if_pos hCc] at h; cases h
    rw [if_neg (not_not_intro hCc)] at h
    cases hloop : createLoop mint rs rem with
    | error e => rw [hloop] at h; cases h
    | ok v =>
      cases v
      exact hdup (createLoop_ok_nodup mint rs rem hCc hloop)
  · intro accs mint rs rem h1 h2 hsum hcnt hnz hva hdup
    unfold create_split_config
    rw [if_neg (not_not_intro ⟨h1, h2⟩), if_neg (not_not_intro hsum),
      if_neg (not_not_intro hcnt)]
    rw [createLoop_dup mint rs rem hcnt hnz hva hdup]
  · intro accs mint rs rem e h
    unfold createPersistedConfig
    rw [h]

/-- Witness for C7: the empty recipient set is rejected with the
invalid-count error. -/
theorem create_split_config_validation_witness :
    create_split_config exCreateAccs exMint [] [] =
      .error .InvalidRecipientCount :=
  create_split_config_validation.1 exCreateAccs exMint [] [] (Or.inl rfl)

/-- C10: the unclaimed-liability list holds at most one entry per recipient
identity and at most 20 entries, and every operation preserves this: create
initializes it empty; the distribute upsert increments an existing entry in
place (keys and length unchanged), appends only when no entry exists and the
list is below capacity, and fails with the capacity error instead of
appending a 21st entry; execute_split preserves the invariant; claim removes
exactly the caller's single entry; update leaves the list untouched. -/
theorem unclaimed_list_invariant :
    (∀ (accs : CreateAccounts) (mint : Pubkey) (rs : List Recipient)
        (rem : List AccountInfo) (cfg : SplitConfig),
      create_split_config accs mint rs rem = .ok cfg →
      cfg.unclaimed_amounts = [] ∧ UnclaimedInv cfg.unclaimed_amounts) ∧
    (∀ (u : List UnclaimedAmount) (addr : Pubkey) (amt : Nat) (now : Int)
        (u' : List UnclaimedAmount),
      (∃ e ∈ u, e.recipient = addr) →
      upsertUnclaimed u addr amt now = .ok u' →
      u'.map (fun e => e.recipient) = u.map (fun e => e.recipient) ∧
      u'.length = u.length) ∧
    (∀ (u : List UnclaimedAmount) (addr : Pubkey) (amt : Nat) (now : Int),
      (∀ e ∈ u, ¬ e.recipient = addr) → u.length < MAX_RECIPIENTS →
      upsertUnclaimed u addr amt now = .ok (u ++ [⟨addr, amt, now⟩])) ∧
    (∀ (u : List UnclaimedAmount) (addr : Pubkey) (amt : Nat) (now : Int),
      (∀ e ∈ u, ¬ e.recipient = addr) → MAX_RECIPIENTS ≤ u.length →
      upsertUnclaimed u addr amt now = .error .TooManyUnclaimedEntries) ∧
    (∀ (ctx : ExecuteCtx) (res : ExecuteResult),
      execute_split ctx = some (.ok res) →
      UnclaimedInv ctx.split_config.unclaimed_amounts →
      UnclaimedInv res.config.unclaimed_amounts) ∧
    (∀ (ctx : ClaimCtx) (res : ClaimResult),
      claim_unclaimed ctx = .ok res →
      UnclaimedInv ctx.split_config.unclaimed_amounts →
      UnclaimedInv res.config.unclaimed_amounts ∧
      res.config.unclaimed_amounts.length + 1 =
        ctx.split_config.unclaimed_amounts.length ∧
      (∀ e ∈ res.config.unclaimed_amounts, ¬ e.recipient = ctx.claimer)) ∧
    (∀ (ctx : UpdateCtx) (nr : List Recipient) (cfg' : SplitConfig),
      update_split_config ctx nr = .ok cfg' →
      cfg'.unclaimed_amounts = ctx.split_config.unclaimed_amounts) := by
  refine ⟨?_, ?_, ?_, ?_, ?_, ?_, ?_⟩
  · intro accs mint rs rem cfg h
    unfold create_split_config at h
    by_cases hA : MIN_RECIPIENTS ≤ rs.length ∧ rs.length ≤ MAX_RECIPIENTS
    swap
    · rw [if_pos hA] at h; cases h
    rw [if_neg (not_not_intro hA)] at h
    by_cases hBs : (rs.map (fun r => r.percentage_bps)).sum = REQUIRED_SPLIT_TOTAL
    swap
    · rw [if_pos hBs] at h; cases h
    rw [if_neg (not_not_intro hBs)] at h
    by_cases hCc : rem.length = rs.length
    swap
    · rw [if_pos hCc] at h; cases h
    rw [if_neg (not_not_intro hCc)] at h
    cases hloop : createLoop mint rs rem with
    | error e => rw [hloop] at h; cases h
    | ok v =>
      cases v
      simp only [hloop] at h
      cases h
      exact ⟨rfl, by simp [UnclaimedInv, MAX_RECIPIENTS]⟩
  · intro u addr amt now u' hmem hup
    unfold upsertUnclaimed at hup
    have hany : u.any (fun e => e.recipient = addr) = true := by
      obtain ⟨e, he, hea⟩ := hmem
      exact List.any_eq_true.mpr ⟨e, he, by simp [hea]⟩
    rw [if_pos hany] at hup
    obtain ⟨hk, hl, -⟩ := bumpExisting_ok u addr amt now u' hmem hup
    exact ⟨hk, hl⟩
  · intro u addr amt now hall hcap
    unfold upsertUnclaimed
    have hany : ¬ u.any (fun e => e.recipient = addr) = true := by
      simp only [List.any_eq_true, decide_eq_true_eq]
      rintro ⟨e, he, hea⟩
      exact hall e he hea
    rw [if_neg hany, if_pos hcap]
  · intro u addr amt now hall hcap
    unfold upsertUnclaimed
    have hany : ¬ u.any (fun e => e.recipient = addr) = true := by
      simp only [List.any_eq_true, decide_eq_true_eq]
      rintro ⟨e, he, hea⟩
      exact hall e he hea
    rw [if_neg hany, if_neg (by omega : ¬ u.length < MAX_RECIPIENTS)]
  · intro ctx res h hinv
    unfold execute_split at h
    by_cases h0 : ctx.vaultBal = 0
    · rw [if_pos h0] at h
      cases h
      exact hinv
    · rw [if_neg h0] at h
      cases hloop : distLoop ctx.mintKey ctx.vaultBal ctx.remaining ctx.now
          ctx.split_config.recipients 0 (initAcc ctx) with
      | none => rw [hloop] at h; cases h
      | some r =>
        cases r with
        | error e => simp only [hloop] at h; cases h
        | ok acc =>
          simp only [hloop, Option.some.injEq] at h
          obtain ⟨-, hI⟩ := distLoop_ok ctx.mintKey ctx.vaultBal ctx.remaining
            ctx.now ctx.split_config.recipients 0 (initAcc ctx) acc hloop
          obtain ⟨-, -, -, -, -, hrc, -, -⟩ :=
            feePhase_ok ctx.split_config ctx.vaultBal ctx.mintKey
              ctx.tokenProgKey ctx.remaining acc res h
          rw [hrc]
          exact hI hinv
  · intro ctx res h hinv
    unfold claim_unclaimed at h
    cases hex : extractUnclaimed ctx.split_config.unclaimed_amounts
        ctx.claimer with
    | none => rw [hex] at h; cases h
    | some pr =>
      obtain ⟨entry, rest⟩ := pr
      simp only [hex] at h
      split_ifs at h with htr
      cases h
      obtain ⟨hlen, hnd⟩ := hinv
      obtain ⟨hk, pre, suf, hu, hrest, hpre⟩ :=
        extractUnclaimed_some _ _ _ _ hex
      have hsub : rest.Sublist ctx.split_config.unclaimed_amounts := by
        rw [hu, hrest]
        exact List.Sublist.append_left (List.sublist_cons_self entry suf) pre
      have hndrest : (rest.map (fun e => e.recipient)).Nodup :=
        (hsub.map (fun e => e.recipient)).nodup hnd
      have hlenrest : rest.length + 1 =
          ctx.split_config.unclaimed_amounts.length := by
        rw [hu, hrest]
        simp only [List.length_append, List.length_cons]
        omega
      refine ⟨⟨(show rest.length ≤ MAX_RECIPIENTS by omega), hndrest⟩,
        hlenrest, ?_⟩
      show ∀ e ∈ rest, ¬ e.recipient = ctx.claimer
      rw [hrest]
      intro e he hek
      rw [hu] at hnd
      simp only [List.map_append, List.map_cons] at hnd
      rcases List.mem_append.mp he with hp | hs
      · exact hpre e hp hek
      · have hmem : ctx.claimer ∈ suf.map (fun e => e.recipient) :=
          List.mem_map.mpr ⟨e, hs, hek⟩
        rw [hk] at hnd
        have hnd2 := (List.nodup_append.mp hnd).2.1
        exact (List.nodup_cons.mp hnd2).1 hmem
  · intro ctx nr cfg' h
    unfold update_split_config at h
    by_cases hA : ctx.vaultBal = 0
    swap
    · rw [if_pos hA] at h; cases h
    rw [if_neg (not_not_intro hA)] at h
    by_cases hB : MIN_RECIPIENTS ≤ nr.length ∧ nr.length ≤ MAX_RECIPIENTS
    swap
    · rw [if_pos hB] at h; cases h
    rw [if_neg (not_not_intro hB)] at h
    by_cases hC : (nr.map (fun r => r.percentage_bps)).sum = REQUIRED_SPLIT_TOTAL
    swap
    · rw [if_pos hC] at h; cases h
    rw [if_neg (not_not_intro hC)] at h
    by_cases hD : ctx.remaining.length = nr.length
    swap
    · rw [if_pos hD] at h; cases h
    rw [if_neg (not_not_intro hD)] at h
    cases hloop : updateLoop ctx.split_config.mint nr ctx.remaining with
    | error e => rw [hloop] at h; cases h
    | ok v =>
      cases v
      simp only [hloop] at h
      cases h
      rfl

/-- Witness for C10: on a full 20-entry liability table, an upsert for a new
recipient fails with the capacity error instead of appending a 21st entry. -/
theorem unclaimed_list_invariant_witness :
    upsertUnclaimed ((List.range 20).map (fun i => ⟨100 + i, 1, 0⟩)) 7 5 0 =
      .error .TooManyUnclaimedEntries :=
  unclaimed_list_invariant.2.2.2.1
    ((List.range 20).map (fun i => ⟨100 + i, 1, 0⟩)) 7 5 0
    (by decide) (by decide)

end CascadePay
